import Mathlib

/-!
Verification of the cdktf-diff action's core logic, embedded from
`src/runDiff.ts` (class `RunDiff`).

The two verified components are:

* the output classifier (`RunDiff.runDiff`, lines 183-220): strips ANSI
  escape sequences from the captured command output and classifies the
  cleaned text into result codes "0" (no changes), "1" (error) and
  "2" (changes planned), with a human-readable summary;
* the job resolver (`RunDiff.getJobId`, lines 136-162): walks a paginated
  job listing (100 records per page) until it finds a record whose name
  equals the requested job name, failing once a short page is reached
  without a match.

Texts are modelled as `List Char`.  The page-fetching API is modelled as a
pure function `Nat → List Job`.  The unbounded `while (true)` loop of
`getJobId` is modelled with an explicit fuel parameter (the loop is not
total: an upstream that always returns full pages makes it run forever,
which the fuel model renders as `none` for every fuel value).
-/

namespace CdktfDiff

/-! ## ANSI escape stripping

`runDiff.ts` line 200:
`output.replace(/\x1B\[([0-9]{1,3}(;[0-9]{1,2})?)?[mGK]/g, "")`.

The regular expression's three character classes (decimal digits, the
separator `;`, and the final bytes `m`/`G`/`K`) are pairwise disjoint, so
the regex engine's greedy matching with backtracking is equivalent to the
deterministic parser below: at a given start position the regex matches
iff the parser succeeds, and the match length is unique.
-/

/-- ANSI escape introducer, `\x1B` in the source regex. -/
def escChar : Char := '\x1b'

/-- Final byte of the escape sequence: the character class `[mGK]`. -/
def isFinalByte (c : Char) : Bool := c == 'm' || c == 'G' || c == 'K'

/-- Consume the final byte `[mGK]` of the escape sequence; returns the
remaining input on success. -/
def parseFinal : List Char → Option (List Char)
  | [] => none
  | c :: r => if isFinalByte c then some r else none

/-- Parse the parameter part `([0-9]{1,3}(;[0-9]{1,2})?)?` followed by the
final byte `[mGK]`.  `Char.isDigit` is exactly the class `[0-9]`. -/
def parseParams (l : List Char) : Option (List Char) :=
  let ds := l.takeWhile Char.isDigit
  let r1 := l.dropWhile Char.isDigit
  if 3 < ds.length then none
  else if ds.length == 0 then parseFinal l
  else
    match r1 with
    | ';' :: r2 =>
      let es := r2.takeWhile Char.isDigit
      let r3 := r2.dropWhile Char.isDigit
      if es.length == 0 || 2 < es.length then none else parseFinal r3
    | _ => parseFinal r1

/-- Try to match the whole escape-sequence regex at the head of the input:
`ESC` `[` then parameters then a final byte.  Returns the input remaining
after the match. -/
def matchCSI : List Char → Option (List Char)
  | c1 :: c2 :: rest =>
    if c1 = escChar ∧ c2 = '[' then parseParams rest else none
  | _ => none

/-- Global replacement with the empty string, as JavaScript
`String.replace` with the `g` flag performs it: scan left to right, drop
each non-overlapping match, and continue scanning right after the dropped
match (removed regions are never re-scanned).  The recursion is driven by
a fuel parameter; each step either keeps one character or drops a match of
at least three characters, so `fuel = input length` always suffices and
the `0`-fuel fallback is never reached on that budget. -/
def stripAnsiFuel : Nat → List Char → List Char
  | 0, l => l
  | _ + 1, [] => []
  | fuel + 1, c :: cs =>
    match matchCSI (c :: cs) with
    | some rest => stripAnsiFuel fuel rest
    | none => c :: stripAnsiFuel fuel cs

/-- The `cleanOutput` computation of `runDiff.ts` line 200: remove every
ANSI CSI escape sequence matching `\x1B\[([0-9]{1,3}(;[0-9]{1,2})?)?[mGK]`
from the raw captured output. -/
def stripAnsi (l : List Char) : List Char := stripAnsiFuel l.length l

/-! ## Output classification

`runDiff.ts` lines 202-220.  The source uses `String.includes` for the
containment checks and `String.match` (first match, no `g` flag) for the
patterns `/Error: .*/` and `/Plan:.*/`.
-/

/-- JavaScript `haystack.includes(needle)`: `true` iff `pat` occurs as a
contiguous substring. -/
def hasSubstr (pat : List Char) : List Char → Bool
  | [] => pat.isEmpty
  | c :: cs => pat.isPrefixOf (c :: cs) || hasSubstr pat cs

/-- Character class matched by `.` in a JavaScript regex without the `s`
flag: everything except the four line terminators. -/
def isDotChar (c : Char) : Bool :=
  !(c == '\n' || c == '\r' || c == '\u2028' || c == '\u2029')

/-- JavaScript `text.match(re)?.[0]` for a regex of the shape
`literal` followed by `.*`: find the leftmost occurrence of the literal
`pat` and return it together with the rest of its line (greedy `.*`). -/
def firstMatchToEol (pat : List Char) : List Char → Option (List Char)
  | [] => none
  | c :: cs =>
    if pat.isPrefixOf (c :: cs) then
      some (pat ++ ((c :: cs).drop pat.length).takeWhile isDotChar)
    else firstMatchToEol pat cs

/-- Error phrase checked first by `runDiff.ts` line 203 (a single literal,
note: not the bare sentence `"Planning failed."`). -/
def errorPhrase : List Char :=
  "Planning failed. Terraform encountered an error".toList

/-- No-change phrase of `runDiff.ts` line 208. -/
def noChangesPhrase : List Char :=
  "No changes. Your infrastructure matches the configuration.".toList

/-- Literal part of the regex `/Error: .*/` of `runDiff.ts` line 204. -/
def errorPat : List Char := "Error: ".toList

/-- Literal part of the regex `/Plan:.*/` of `runDiff.ts` line 212. -/
def planPat : List Char := "Plan:".toList

/-- Fallback summary of `runDiff.ts` line 204. -/
def unknownErrorMsg : List Char := "Unknown error occurred".toList

/-- Message of the error thrown at `runDiff.ts` line 217. -/
def indeterminateMsg : List Char :=
  "Could not determine if diff ran successfully".toList

/-- Result-code enumeration of the specification; `code` gives the
serialized string the implementation uses (`ActionOutputs.result_code`,
`runDiff.ts` lines 47-53). -/
inductive ResultCode where
  | noChange
  | error
  | changed
deriving DecidableEq, Repr

/-- Serialization used by the implementation: `'0'` no changes, `'1'`
error, `'2'` changes detected. -/
def ResultCode.code : ResultCode → String
  | .noChange => "0"
  | .error => "1"
  | .changed => "2"

/-- Body of the `try` block of `RunDiff.runDiff` after the command output
has been captured (`runDiff.ts` lines 200-217): strip escapes, then check
the error phrase, the no-change phrase and the `Plan:` pattern in that
order; when nothing matches, throw (modelled as `Except.error`). -/
def parseOutput (output : List Char) : Except (List Char) (String × List Char) :=
  let cleanOutput := stripAnsi output
  if hasSubstr errorPhrase cleanOutput then
    Except.ok ("1", (firstMatchToEol errorPat cleanOutput).getD unknownErrorMsg)
  else if hasSubstr noChangesPhrase cleanOutput then
    Except.ok ("0", noChangesPhrase)
  else
    match firstMatchToEol planPat cleanOutput with
    | some planMatch => Except.ok ("2", planMatch)
    | none => Except.error indeterminateMsg

/-- `RunDiff.runDiff` as observed by its caller: the `catch` clause of
`runDiff.ts` lines 218-220 converts the thrown error into
`result_code "1"` with the error's message as summary, so classification
is total. -/
def runDiff (output : List Char) : String × List Char :=
  match parseOutput output with
  | Except.ok r => r
  | Except.error msg => ("1", msg)

/-! ## Job resolver

`runDiff.ts` lines 136-162 (`RunDiff.getJobId`).
-/

/-- One record of the paginated job listing; `html_url` is nullable in the
GitHub API response, hence the `Option`. -/
structure Job where
  id : Nat
  name : String
  html_url : Option String
deriving DecidableEq, Repr

/-- Outcome of the resolver: either the matched record's fields, or the
error thrown at `runDiff.ts` line 157, which carries the job name. -/
inductive JobResult where
  | found (job_id : Nat) (html_url : String)
  | notFound (jobName : String)
deriving DecidableEq, Repr

/-- Predicate of `runDiff.ts` line 148: `j.name === this.inputs.jobName`
(exact, case-sensitive equality). -/
def jobMatches (jobName : String) (j : Job) : Bool := j.name == jobName

/-- The `while (true)` loop of `RunDiff.getJobId`, fuel-indexed, starting
at page `page`.  Besides the result it returns the list of page numbers
passed to `listJobsForWorkflowRun`, in request order, so that theorems can
speak about how many fetches the loop performs.  `job.html_url || ""` is
modelled by `Option.getD ""` (the API field is absent or a non-empty URL).
`none` means the fuel ran out, i.e. the loop is still running after
`fuel` iterations. -/
def getJobId (fetch : Nat → List Job) (jobName : String) :
    Nat → Nat → Option (JobResult × List Nat)
  | 0, _ => none
  | fuel + 1, page =>
    let jobs := fetch page
    match jobs.find? (jobMatches jobName) with
    | some job => some (.found job.id (job.html_url.getD ""), [page])
    | none =>
      if jobs.length < 100 then some (.notFound jobName, [page])
      else
        match getJobId fetch jobName fuel (page + 1) with
        | some (r, pages) => some (r, page :: pages)
        | none => none

/-! ## Concrete inputs used by witnesses and counterexamples -/

/-- Summary extraction as the specification words it: the first LINE of
the cleaned text that begins with `"Error: "`, with the fixed fallback
when no such line exists.  This definition follows the spec's words, not
the source, and exists only to be compared against the implementation's
behaviour. -/
def specErrorSummary (clean : List Char) : List Char :=
  ((clean.splitOn '\n').find? (fun l => errorPat.isPrefixOf l)).getD unknownErrorMsg

/-- Output whose cleaned text contains the sentence `"Planning failed."`
and a `Plan:` line, but not the longer literal the implementation greps
for. -/
def planningFailedShortText : List Char :=
  "Planning failed.\nPlan: 1 to add, 0 to change, 0 to destroy.".toList

/-- Output containing the implementation's error literal together with
the no-change phrase and a `Plan:` line. -/
def allPhrasesText : List Char :=
  ("Planning failed. Terraform encountered an error while generating this plan.\n" ++
   "No changes. Your infrastructure matches the configuration.\n" ++
   "Plan: 1 to add, 1 to change, 1 to destroy.").toList

/-- Failed-plan output whose only `"Error: "` occurrence starts in the
middle of a line, so no line begins with `"Error: "`. -/
def midlineErrorText : List Char :=
  "Planning failed. Terraform encountered an error while generating this plan.\nsee Error: disk full".toList

/-- Prefix of `midlineErrorText` up to its only `"Error: "` occurrence. -/
def midlineErrorPre : List Char :=
  "Planning failed. Terraform encountered an error while generating this plan.\nsee ".toList

/-- Rest of `midlineErrorText` after its only `"Error: "` occurrence. -/
def midlineErrorSuf : List Char := "disk full".toList

/-- Failed-plan output with no `"Error: "` occurrence at all. -/
def planningFailedOnlyText : List Char :=
  "Planning failed. Terraform encountered an error while generating this plan.".toList

/-- Colorized no-change output, escape sequences included. -/
def greenNoChangesText : List Char :=
  "\x1b[32mNo changes. Your infrastructure matches the configuration.\x1b[0m".toList

/-- Plain plan-summary output. -/
def planOnlyText : List Char := "Plan: 1 to add, 2 to change, 3 to destroy.".toList

/-- Rest of `planOnlyText` after the leading `"Plan:"`. -/
def planOnlySuf : List Char := " 1 to add, 2 to change, 3 to destroy.".toList

/-- Output matching none of the classifier's patterns. -/
def gibberishText : List Char :=
  "Some unexpected output that does not resemble any known marker".toList

/-- An escape sequence nested inside another: one strip removes the inner
one and thereby exposes a new, complete escape sequence. -/
def ansiNestedText : List Char := [escChar, escChar, '[', 'm', '[', 'm']

/-- A full page of 100 records none of which is the target. -/
def pageFullOfOthers : List Job := List.replicate 100 ⟨7, "other-job", some "u"⟩

/-- The record searched for in the resolver witnesses. -/
def targetJob : Job := ⟨5, "target-job", some "https://jobs.example/5"⟩

/-- Paginated source: one full page of non-matches, then a page holding
the target. -/
def twoPageFetch : Nat → List Job :=
  fun p => if p = 1 then pageFullOfOthers else if p = 2 then [targetJob] else []

/-- Paginated source: a single short page (50 records) with no match. -/
def shortPageFetch : Nat → List Job :=
  fun p => if p = 1 then List.replicate 50 ⟨7, "other-job", none⟩ else []

/-- Paginated source that answers every request with a full page of
non-matching records. -/
def alwaysFullFetch : Nat → List Job := fun _ => pageFullOfOthers

/-- Paginated source whose only record matches but has no `html_url`. -/
def nullUrlFetch : Nat → List Job :=
  fun p => if p = 1 then [⟨9, "target-job", none⟩] else []

/-! ## Helper lemmas about the classifier -/

/-- The escape matcher fails on any input that does not start with `ESC`. -/
lemma matchCSI_none_of_head_ne (c : Char) (cs : List Char) (h : c ≠ escChar) :
    matchCSI (c :: cs) = none := by
  cases cs with
  | nil => rfl
  | cons c2 rest => simp [matchCSI]; intro hc; exact absurd hc h

/-- Stripping is the identity on texts without the escape character. -/
lemma stripAnsiFuel_of_no_esc :
    ∀ (fuel : Nat) (s : List Char), escChar ∉ s → stripAnsiFuel fuel s = s := by
  intro fuel
  induction fuel with
  | zero => intro s _; rfl
  | succ n ih =>
    intro s hs
    cases s with
    | nil => rfl
    | cons c cs =>
      have hc : c ≠ escChar := fun h => hs (h ▸ List.mem_cons_self c cs)
      rw [stripAnsiFuel, matchCSI_none_of_head_ne c cs hc]
      exact congrArg (c :: ·) (ih cs fun h => hs (List.mem_cons_of_mem c h))

/-- A list starts with itself followed by anything. -/
lemma isPrefixOf_append_self : ∀ (p s : List Char), p.isPrefixOf (p ++ s) = true
  | [], _ => List.isPrefixOf_nil_left
  | c :: cs, s => by
    rw [List.cons_append, List.isPrefixOf_cons₂_self]
    exact isPrefixOf_append_self cs s

/-- When `pat` occurs nowhere strictly inside `pre` (as a start position),
the leftmost match of `pat .*` in `pre ++ pat ++ suf` is the occurrence at
the seam, and it extends to the end of that line. -/
lemma firstMatchToEol_of_first_occurrence (pat : List Char) (hpat : pat ≠ []) :
    ∀ (pre suf : List Char),
      (∀ i, i < pre.length → pat.isPrefixOf ((pre ++ pat ++ suf).drop i) = false) →
      firstMatchToEol pat (pre ++ pat ++ suf) =
        some (pat ++ suf.takeWhile isDotChar) := by
  intro pre
  induction pre with
  | nil =>
    intro suf _
    obtain ⟨p, ps, rfl⟩ : ∃ p ps, pat = p :: ps := by
      cases pat with
      | nil => exact absurd rfl hpat
      | cons p ps => exact ⟨p, ps, rfl⟩
    have hshape : [] ++ (p :: ps) ++ suf = p :: (ps ++ suf) := rfl
    rw [hshape, firstMatchToEol,
      if_pos (show (p :: ps).isPrefixOf (p :: (ps ++ suf)) = true from
        isPrefixOf_append_self (p :: ps) suf),
      show List.drop (p :: ps).length (p :: (ps ++ suf)) = suf from
        List.drop_left (p :: ps) suf]
  | cons c pre' ih =>
    intro suf hfirst
    have hshape : (c :: pre') ++ pat ++ suf = c :: (pre' ++ pat ++ suf) := rfl
    have h0 : pat.isPrefixOf (c :: (pre' ++ pat ++ suf)) = false := by
      have h := hfirst 0 (by simp)
      rwa [List.drop_zero, hshape] at h
    have hrest : ∀ i, i < pre'.length →
        pat.isPrefixOf ((pre' ++ pat ++ suf).drop i) = false := by
      intro i hi
      have h := hfirst (i + 1) (by simpa using Nat.succ_lt_succ hi)
      rwa [hshape, List.drop_succ_cons] at h
    rw [hshape, firstMatchToEol, if_neg (by rw [h0]; exact Bool.false_ne_true),
      ih suf hrest]

/-- If the literal head of the pattern occurs nowhere in the text, the
regex does not match. -/
lemma firstMatchToEol_eq_none_of_not_substr (pat : List Char) :
    ∀ (s : List Char), hasSubstr pat s = false → firstMatchToEol pat s = none := by
  intro s
  induction s with
  | nil => intro _; rfl
  | cons c cs ih =>
    intro h
    rw [hasSubstr] at h
    simp only [Bool.or_eq_false_iff] at h
    rw [firstMatchToEol, if_neg (by simp [h.1]), ih h.2]
/-! ## Claim theorems: output classifier -/

/-- Claim C1 (corrected): the error branch is indeed checked before the
no-change and `Plan:` branches, but the phrase it tests is the single
literal `"Planning failed. Terraform encountered an error"`; whenever the
cleaned text contains that literal the result code is `Error` (`"1"`), no
matter what else (a `Plan:` line, the no-change phrase) the text
contains.  No separate exit indicator reaches the parser in `runDiff.ts`:
a non-zero exit makes `exec.exec` throw, which the `catch` clause maps to
`Error` before any pattern is consulted. -/
theorem runDiff_errorPhrase_priority (output : List Char)
    (h : hasSubstr errorPhrase (stripAnsi output) = true) :
    (runDiff output).1 = ResultCode.error.code := by
  unfold runDiff parseOutput
  simp [h, ResultCode.code]

set_option maxRecDepth 40000 in
/-- Witness for C1: an output containing the implementation's error
literal together with the no-change phrase and a `Plan:` line is still
classified as an error. -/
theorem runDiff_errorPhrase_priority_witness :
    hasSubstr noChangesPhrase (stripAnsi allPhrasesText) = true ∧
    hasSubstr planPat (stripAnsi allPhrasesText) = true ∧
    (runDiff allPhrasesText).1 = ResultCode.error.code :=
  ⟨by decide, by decide, runDiff_errorPhrase_priority allPhrasesText (by decide)⟩

/-- Counterexample for C1 as stated: a cleaned text containing the
claimed error phrase `"Planning failed."` together with a `Plan:` line is
classified `"2"` (Changed), not Error, because the implementation greps
only for the longer literal. -/
theorem runDiff_errorPhrase_priority_cex :
    hasSubstr "Planning failed.".toList (stripAnsi planningFailedShortText) = true ∧
    (runDiff planningFailedShortText).1 ≠ ResultCode.error.code := by
  decide

/-- Claim C2 (corrected): on the error branch the summary is the first
match of `/Error: .*/` — the text from the first occurrence of
`"Error: "` (at any position in its line, not only at a line start)
through the end of that line — with the fallback `"Unknown error
occurred"` exactly when `"Error: "` occurs nowhere in the cleaned
text. -/
theorem runDiff_errorSummary :
    (∀ (output pre suf : List Char),
        hasSubstr errorPhrase (stripAnsi output) = true →
        stripAnsi output = pre ++ errorPat ++ suf →
        (∀ i, i < pre.length →
          errorPat.isPrefixOf ((stripAnsi output).drop i) = false) →
        runDiff output = (ResultCode.error.code, errorPat ++ suf.takeWhile isDotChar)) ∧
    (∀ output : List Char,
        hasSubstr errorPhrase (stripAnsi output) = true →
        hasSubstr errorPat (stripAnsi output) = false →
        runDiff output = (ResultCode.error.code, unknownErrorMsg)) := by
  constructor
  · intro output pre suf herr hdecomp hfirst
    have hm : firstMatchToEol errorPat (stripAnsi output) =
        some (errorPat ++ suf.takeWhile isDotChar) := by
      rw [hdecomp] at hfirst ⊢
      exact firstMatchToEol_of_first_occurrence errorPat (by decide) pre suf hfirst
    unfold runDiff parseOutput
    simp [herr, hm, ResultCode.code]
  · intro output herr hnone
    have hm := firstMatchToEol_eq_none_of_not_substr errorPat (stripAnsi output) hnone
    unfold runDiff parseOutput
    simp [herr, hm, ResultCode.code]

/-- Counterexample for C2 as stated: in `midlineErrorText` no line begins
with `"Error: "`, so the spec-worded summary is the fallback, yet the
implementation returns the mid-line match `"Error: disk full"`. -/
theorem runDiff_errorSummary_cex :
    (runDiff midlineErrorText).1 = ResultCode.error.code ∧
    (runDiff midlineErrorText).2 ≠ specErrorSummary (stripAnsi midlineErrorText) := by
  decide

/-- Witness for C2: both conjuncts applied at concrete failed-plan
outputs, one with a mid-line `"Error: "` occurrence and one with none. -/
theorem runDiff_errorSummary_witness :
    runDiff midlineErrorText = (ResultCode.error.code, "Error: disk full".toList) ∧
    runDiff planningFailedOnlyText = (ResultCode.error.code, unknownErrorMsg) := by
  constructor
  · rw [runDiff_errorSummary.1 midlineErrorText midlineErrorPre midlineErrorSuf
      (by decide) (by decide) (by decide)]
    decide
  · exact runDiff_errorSummary.2 planningFailedOnlyText (by decide) (by decide)

/-- Claim C5 (confirmed): a cleaned text that contains the no-change
phrase and not the error literal is classified `NoChange`, serialized
`"0"`, with exactly that phrase as summary. -/
theorem runDiff_noChanges (output : List Char)
    (herr : hasSubstr errorPhrase (stripAnsi output) = false)
    (hnc : hasSubstr noChangesPhrase (stripAnsi output) = true) :
    runDiff output = (ResultCode.noChange.code, noChangesPhrase) := by
  unfold runDiff parseOutput
  simp [herr, hnc, ResultCode.code]

/-- Witness for C5: colorized no-change output, stripped and
classified. -/
theorem runDiff_noChanges_witness :
    runDiff greenNoChangesText = (ResultCode.noChange.code, noChangesPhrase) :=
  runDiff_noChanges greenNoChangesText (by decide) (by decide)

/-- Claim C8 (corrected, amended part): stripping is idempotent on every
input whose stripped form no longer contains the escape character — in
particular on every output that strips to plain text. -/
theorem stripAnsi_idempotent_of_no_esc (l : List Char)
    (h : escChar ∉ stripAnsi l) :
    stripAnsi (stripAnsi l) = stripAnsi l :=
  stripAnsiFuel_of_no_esc (stripAnsi l).length (stripAnsi l) h

/-- Counterexample for C8 as stated: removing a match can splice a new
escape sequence together (`ESC ESC [ m [ m` strips to `ESC [ m`, which a
second strip removes entirely), so stripping twice differs from stripping
once. -/
theorem stripAnsi_not_idempotent :
    stripAnsi (stripAnsi ansiNestedText) ≠ stripAnsi ansiNestedText := by
  decide

/-- Witness for C8: a concrete colorized output whose stripped form is
escape-free, where a second strip changes nothing. -/
theorem stripAnsi_idempotent_witness :
    escChar ∉ stripAnsi greenNoChangesText ∧
    stripAnsi (stripAnsi greenNoChangesText) = stripAnsi greenNoChangesText :=
  ⟨by decide, stripAnsi_idempotent_of_no_esc greenNoChangesText (by decide)⟩

/-- Claim C6 (confirmed): for a cleaned text without the error literal
and without the no-change phrase, whose first `"Plan:"` occurrence starts
at position `pre.length`, the result is Changed (serialized `"2"`) and
the summary is the matched text verbatim: from that `"Plan:"` through the
end of its line, trailing punctuation included. -/
theorem runDiff_planLine (output pre suf : List Char)
    (herr : hasSubstr errorPhrase (stripAnsi output) = false)
    (hnc : hasSubstr noChangesPhrase (stripAnsi output) = false)
    (hdecomp : stripAnsi output = pre ++ planPat ++ suf)
    (hfirst : ∀ i, i < pre.length →
      planPat.isPrefixOf ((stripAnsi output).drop i) = false) :
    runDiff output = (ResultCode.changed.code, planPat ++ suf.takeWhile isDotChar) := by
  have hm : firstMatchToEol planPat (stripAnsi output) =
      some (planPat ++ suf.takeWhile isDotChar) := by
    rw [hdecomp] at hfirst ⊢
    exact firstMatchToEol_of_first_occurrence planPat (by decide) pre suf hfirst
  unfold runDiff parseOutput
  simp [herr, hnc, hm, ResultCode.code]

/-- Witness for C6: the canonical plan line is returned verbatim,
including the trailing period. -/
theorem runDiff_planLine_witness :
    runDiff planOnlyText = (ResultCode.changed.code, planOnlyText) := by
  rw [runDiff_planLine planOnlyText [] planOnlySuf (by decide) (by decide) (by decide)
    (fun i h => absurd h (Nat.not_lt_zero i))]
  decide

/-- Claim C7 (confirmed): classification is total — every output maps to
one of the three result codes — and an output matching none of the known
patterns yields Error with the fixed diagnostic summary (the error thrown
at `runDiff.ts` line 217, converted into a result by the catch clause at
lines 218-220). -/
theorem runDiff_total (output : List Char) :
    ((runDiff output).1 = ResultCode.noChange.code ∨
     (runDiff output).1 = ResultCode.error.code ∨
     (runDiff output).1 = ResultCode.changed.code) ∧
    (hasSubstr errorPhrase (stripAnsi output) = false →
     hasSubstr noChangesPhrase (stripAnsi output) = false →
     hasSubstr planPat (stripAnsi output) = false →
     runDiff output = (ResultCode.error.code, indeterminateMsg)) := by
  constructor
  · by_cases h1 : hasSubstr errorPhrase (stripAnsi output) = true
    · refine Or.inr (Or.inl ?_)
      unfold runDiff parseOutput
      simp [h1, ResultCode.code]
    · rw [Bool.not_eq_true] at h1
      by_cases h2 : hasSubstr noChangesPhrase (stripAnsi output) = true
      · refine Or.inl ?_
        unfold runDiff parseOutput
        simp [h1, h2, ResultCode.code]
      · rw [Bool.not_eq_true] at h2
        cases h3 : firstMatchToEol planPat (stripAnsi output) with
        | some m =>
          refine Or.inr (Or.inr ?_)
          unfold runDiff parseOutput
          simp [h1, h2, h3, ResultCode.code]
        | none =>
          refine Or.inr (Or.inl ?_)
          unfold runDiff parseOutput
          simp [h1, h2, h3, ResultCode.code]
  · intro e1 e2 e3
    have hm := firstMatchToEol_eq_none_of_not_substr planPat (stripAnsi output) e3
    unfold runDiff parseOutput
    simp [e1, e2, hm, ResultCode.code]

/-- Witness for C7: an output with no recognizable marker is classified
as an error with the fixed diagnostic message. -/
theorem runDiff_total_witness :
    ((runDiff gibberishText).1 = ResultCode.noChange.code ∨
     (runDiff gibberishText).1 = ResultCode.error.code ∨
     (runDiff gibberishText).1 = ResultCode.changed.code) ∧
    runDiff gibberishText = (ResultCode.error.code, indeterminateMsg) :=
  ⟨(runDiff_total gibberishText).1,
   (runDiff_total gibberishText).2 (by decide) (by decide) (by decide)⟩

/-! ## Helper lemmas about the resolver -/

/-- Running the loop from `page` across `N` full, non-matching pages up
to a page on which `find?` finds the target: the loop returns the found
record and fetches exactly the pages `page, page+1, ..., page+N`. -/
lemma getJobId_run_to_match (fetch : Nat → List Job) (jobName : String) (tgt : Job) :
    ∀ (N page fuel : Nat), N + 1 ≤ fuel →
      (∀ i, i < N → (fetch (page + i)).length = 100 ∧
        (fetch (page + i)).find? (jobMatches jobName) = none) →
      (fetch (page + N)).find? (jobMatches jobName) = some tgt →
      getJobId fetch jobName fuel page =
        some (.found tgt.id (tgt.html_url.getD ""), List.range' page (N + 1)) := by
  intro N
  induction N with
  | zero =>
    intro page fuel hfuel hfull hmatch
    obtain ⟨f, rfl⟩ : ∃ f, fuel = f + 1 := ⟨fuel - 1, by omega⟩
    rw [Nat.add_zero] at hmatch
    rw [getJobId]
    simp [hmatch, List.range']
  | succ n ih =>
    intro page fuel hfuel hfull hmatch
    obtain ⟨f, rfl⟩ : ∃ f, fuel = f + 1 := ⟨fuel - 1, by omega⟩
    have h0 := hfull 0 (Nat.succ_pos n)
    rw [Nat.add_zero] at h0
    have hrec : getJobId fetch jobName f (page + 1) =
        some (.found tgt.id (tgt.html_url.getD ""), List.range' (page + 1) (n + 1)) := by
      apply ih (page + 1) f (by omega)
      · intro i hi
        have h := hfull (i + 1) (by omega)
        rwa [show page + (i + 1) = page + 1 + i by omega] at h
      · rwa [show page + (n + 1) = page + 1 + n by omega] at hmatch
    rw [getJobId]
    simp [h0.2, h0.1, hrec, List.range'_succ]

/-- Running the loop from `page` across `N` full, non-matching pages up
to a short, non-matching page: the loop fails with the not-found error
carrying the job name after fetching exactly `page, ..., page+N`. -/
lemma getJobId_run_to_short (fetch : Nat → List Job) (jobName : String) :
    ∀ (N page fuel : Nat), N + 1 ≤ fuel →
      (∀ i, i < N → (fetch (page + i)).length = 100 ∧
        (fetch (page + i)).find? (jobMatches jobName) = none) →
      (fetch (page + N)).length < 100 →
      (fetch (page + N)).find? (jobMatches jobName) = none →
      getJobId fetch jobName fuel page =
        some (.notFound jobName, List.range' page (N + 1)) := by
  intro N
  induction N with
  | zero =>
    intro page fuel hfuel hfull hshort hnone
    obtain ⟨f, rfl⟩ : ∃ f, fuel = f + 1 := ⟨fuel - 1, by omega⟩
    rw [Nat.add_zero] at hshort hnone
    rw [getJobId]
    simp [hnone, hshort, List.range']
  | succ n ih =>
    intro page fuel hfuel hfull hshort hnone
    obtain ⟨f, rfl⟩ : ∃ f, fuel = f + 1 := ⟨fuel - 1, by omega⟩
    have h0 := hfull 0 (Nat.succ_pos n)
    rw [Nat.add_zero] at h0
    have hrec : getJobId fetch jobName f (page + 1) =
        some (.notFound jobName, List.range' (page + 1) (n + 1)) := by
      apply ih (page + 1) f (by omega)
      · intro i hi
        have h := hfull (i + 1) (by omega)
        rwa [show page + (i + 1) = page + 1 + i by omega] at h
      · rwa [show page + (n + 1) = page + 1 + n by omega] at hshort
      · rwa [show page + (n + 1) = page + 1 + n by omega] at hnone
    rw [getJobId]
    simp [h0.2, h0.1, hrec, List.range'_succ]

/-! ## Claim theorems: job resolver -/

/-- Claim C3 (confirmed): over `N` pages of exactly 100 records none of
which matches, followed by a page holding the target at index `k`
(`pre.length = k`, everything before it non-matching, so the earliest
delivered match wins by `find?`), the loop returns the target's id and
its detail URL (defaulted from the nullable field) and requests exactly
the pages `1, 2, ..., N+1` in order. -/
theorem getJobId_finds_target (fetch : Nat → List Job) (jobName : String)
    (N k fuel : Nat) (tgt : Job) (pre post : List Job)
    (hfuel : N + 1 ≤ fuel)
    (hfull : ∀ i, 1 ≤ i → i ≤ N → (fetch i).length = 100)
    (hnomatch : ∀ i, 1 ≤ i → i ≤ N → ∀ j ∈ fetch i, jobMatches jobName j = false)
    (hpage : fetch (N + 1) = pre ++ tgt :: post)
    (hidx : pre.length = k)
    (hpre : ∀ j ∈ pre, jobMatches jobName j = false)
    (htgt : jobMatches jobName tgt = true) :
    getJobId fetch jobName fuel 1 =
      some (.found tgt.id (tgt.html_url.getD ""), List.range' 1 (N + 1)) := by
  apply getJobId_run_to_match fetch jobName tgt N 1 fuel hfuel
  · intro i hi
    refine ⟨hfull (1 + i) (by omega) (by omega), ?_⟩
    rw [List.find?_eq_none]
    intro j hj
    simp [hnomatch (1 + i) (by omega) (by omega) j hj]
  · rw [show (1 : Nat) + N = N + 1 by omega, hpage, List.find?_append]
    have hnone : pre.find? (jobMatches jobName) = none := by
      rw [List.find?_eq_none]
      intro j hj
      simp [hpre j hj]
    rw [hnone]
    simp [List.find?, htgt]

/-- Witness for C3: one full page of others, then the target alone on
page 2; the loop fetches pages 1 and 2 and returns record 5. -/
theorem getJobId_finds_target_witness :
    getJobId twoPageFetch "target-job" 2 1 =
      some (.found 5 "https://jobs.example/5", List.range' 1 2) := by
  have h := getJobId_finds_target twoPageFetch "target-job" 1 0 2 targetJob [] []
    (by omega)
    (by intro i h1 h2
        have hi : i = 1 := by omega
        subst hi
        decide)
    (by intro i h1 h2 j hj
        have hi : i = 1 := by omega
        subst hi
        revert j hj
        decide)
    (by decide)
    (by decide)
    (by intro j hj; exact absurd hj (List.not_mem_nil j))
    (by decide)
  exact h.trans (by decide)

/-- Claim C4 (confirmed): over any number of full non-matching pages
terminated by a short (fewer than 100 records) non-matching page, the
loop fails with the not-found error carrying the target name and requests
exactly the pages `1, ..., N+1` — nothing after the short page. -/
theorem getJobId_short_page_notFound (fetch : Nat → List Job) (jobName : String)
    (N fuel : Nat)
    (hfuel : N + 1 ≤ fuel)
    (hfull : ∀ i, 1 ≤ i → i ≤ N → (fetch i).length = 100)
    (hnomatch : ∀ i, 1 ≤ i → i ≤ N + 1 → ∀ j ∈ fetch i, jobMatches jobName j = false)
    (hshort : (fetch (N + 1)).length < 100) :
    getJobId fetch jobName fuel 1 =
      some (.notFound jobName, List.range' 1 (N + 1)) := by
  apply getJobId_run_to_short fetch jobName N 1 fuel hfuel
  · intro i hi
    refine ⟨hfull (1 + i) (by omega) (by omega), ?_⟩
    rw [List.find?_eq_none]
    intro j hj
    simp [hnomatch (1 + i) (by omega) (by omega) j hj]
  · rwa [show (1 : Nat) + N = N + 1 by omega]
  · rw [show (1 : Nat) + N = N + 1 by omega, List.find?_eq_none]
    intro j hj
    simp [hnomatch (N + 1) (by omega) (by omega) j hj]

/-- Witness for C4: a single short page of 50 non-matching records makes
the loop fail after exactly one fetch. -/
theorem getJobId_short_page_notFound_witness :
    getJobId shortPageFetch "target-job" 1 1 =
      some (.notFound "target-job", List.range' 1 1) :=
  getJobId_short_page_notFound shortPageFetch "target-job" 0 1
    (by omega)
    (by intro i h1 h2; omega)
    (by intro i h1 h2 j hj
        have hi : i = 1 := by omega
        subst hi
        revert j hj
        decide)
    (by decide)

/-- Any successful run of the loop was triggered by a page, some steps
ahead of the start page, that contains a match or is short. -/
lemma getJobId_some_trigger (fetch : Nat → List Job) (jobName : String) :
    ∀ (fuel page : Nat) (r : JobResult × List Nat),
      getJobId fetch jobName fuel page = some r →
      ∃ i, (∃ j ∈ fetch (page + i), jobMatches jobName j = true) ∨
        (fetch (page + i)).length < 100 := by
  intro fuel
  induction fuel with
  | zero =>
    intro page r h
    simp [getJobId] at h
  | succ f ih =>
    intro page r h
    simp only [getJobId] at h
    cases hf : (fetch page).find? (jobMatches jobName) with
    | some j =>
      refine ⟨0, Or.inl ⟨j, ?_, ?_⟩⟩
      · rw [Nat.add_zero]
        exact List.mem_of_find?_eq_some hf
      · exact List.find?_some hf
    | none =>
      rw [hf] at h
      by_cases hlen : (fetch page).length < 100
      · exact ⟨0, Or.inr (by rwa [Nat.add_zero])⟩
      · rw [if_neg hlen] at h
        cases hrec : getJobId fetch jobName f (page + 1) with
        | none => rw [hrec] at h; exact absurd h (by simp)
        | some pr =>
          obtain ⟨i, hi⟩ := ih (page + 1) pr hrec
          refine ⟨i + 1, ?_⟩
          rwa [show page + (i + 1) = page + 1 + i by omega]

/-- A matching-or-short page `k` steps ahead of the start page makes the
loop finish within `k + 1` iterations. -/
lemma getJobId_trigger_terminates (fetch : Nat → List Job) (jobName : String) :
    ∀ (k page : Nat),
      ((∃ j ∈ fetch (page + k), jobMatches jobName j = true) ∨
        (fetch (page + k)).length < 100) →
      ∃ r, getJobId fetch jobName (k + 1) page = some r := by
  intro k
  induction k with
  | zero =>
    intro page htrig
    rw [Nat.add_zero] at htrig
    cases hf : (fetch page).find? (jobMatches jobName) with
    | some j =>
      refine ⟨(.found j.id (j.html_url.getD ""), [page]), ?_⟩
      rw [getJobId]
      simp [hf]
    | none =>
      have hlen : (fetch page).length < 100 := by
        rcases htrig with ⟨j, hj, hm⟩ | hlen
        · have := List.find?_eq_none.mp hf j hj
          simp [hm] at this
        · exact hlen
      refine ⟨(.notFound jobName, [page]), ?_⟩
      rw [getJobId]
      simp [hf, hlen]
  | succ n ih =>
    intro page htrig
    cases hf : (fetch page).find? (jobMatches jobName) with
    | some j =>
      refine ⟨(.found j.id (j.html_url.getD ""), [page]), ?_⟩
      rw [getJobId]
      simp [hf]
    | none =>
      by_cases hlen : (fetch page).length < 100
      · refine ⟨(.notFound jobName, [page]), ?_⟩
        rw [getJobId]
        simp [hf, hlen]
      · obtain ⟨r, hr⟩ := ih (page + 1)
          (by rwa [show page + 1 + n = page + (n + 1) by omega])
        obtain ⟨jr, ps⟩ := r
        refine ⟨(jr, page :: ps), ?_⟩
        rw [getJobId]
        simp [hf, hlen, hr]

/-- Claim C9 (confirmed): the loop terminates exactly when some page
(pages are scanned in order 1, 2, 3, ...) contains a matching record or
has strictly fewer than 100 records; and against a source that answers
every request with a full page of non-matching records it runs forever —
for every fuel bound it is still running (`none`), i.e. no hard page
ceiling exists. -/
theorem getJobId_terminates_iff (fetch : Nat → List Job) (jobName : String) :
    ((∃ fuel r, getJobId fetch jobName fuel 1 = some r) ↔
      (∃ p, 1 ≤ p ∧ ((∃ j ∈ fetch p, jobMatches jobName j = true) ∨
        (fetch p).length < 100))) ∧
    ((∀ p, 1 ≤ p → (fetch p).length = 100 ∧
        (∀ j ∈ fetch p, jobMatches jobName j = false)) →
      ∀ fuel, getJobId fetch jobName fuel 1 = none) := by
  have hiff : (∃ fuel r, getJobId fetch jobName fuel 1 = some r) ↔
      (∃ p, 1 ≤ p ∧ ((∃ j ∈ fetch p, jobMatches jobName j = true) ∨
        (fetch p).length < 100)) := by
    constructor
    · rintro ⟨fuel, r, h⟩
      obtain ⟨i, hi⟩ := getJobId_some_trigger fetch jobName fuel 1 r h
      exact ⟨1 + i, by omega, hi⟩
    · rintro ⟨p, hp, htrig⟩
      obtain ⟨r, hr⟩ := getJobId_trigger_terminates fetch jobName (p - 1) 1
        (by rwa [show 1 + (p - 1) = p by omega])
      exact ⟨p - 1 + 1, r, hr⟩
  refine ⟨hiff, ?_⟩
  intro hall fuel
  cases h : getJobId fetch jobName fuel 1 with
  | none => rfl
  | some r =>
    exfalso
    obtain ⟨p, hp, htrig⟩ := hiff.mp ⟨fuel, r, h⟩
    obtain ⟨hlen, hnm⟩ := hall p hp
    rcases htrig with ⟨j, hj, hm⟩ | hshort
    · simp [hnm j hj] at hm
    · omega

/-- Witness for C9: the all-full-pages source keeps the loop running past
a concrete fuel bound of 5 iterations. -/
theorem getJobId_terminates_iff_witness :
    getJobId alwaysFullFetch "target-job" 5 1 = none :=
  (getJobId_terminates_iff alwaysFullFetch "target-job").2
    (fun _ _ =>
      ⟨(by decide : pageFullOfOthers.length = 100),
       fun j hj => by
         rw [List.eq_of_mem_replicate hj]
         decide⟩)
    5

/-- Claim C10 (confirmed): when the matched record's `html_url` field is
absent (`null`/`undefined` in the API response, `none` here), the
resolver still succeeds and returns the empty string as the detail URL
(`job.html_url || ""`). -/
theorem getJobId_null_html_url (fetch : Nat → List Job) (jobName : String)
    (fuel page : Nat) (tgt : Job)
    (hfuel : 1 ≤ fuel)
    (hfind : (fetch page).find? (jobMatches jobName) = some tgt)
    (hurl : tgt.html_url = none) :
    getJobId fetch jobName fuel page = some (.found tgt.id "", [page]) := by
  obtain ⟨f, rfl⟩ : ∃ f, fuel = f + 1 := ⟨fuel - 1, by omega⟩
  rw [getJobId]
  simp [hfind, hurl]

/-- Witness for C10: a matching record with no `html_url` resolves to the
empty URL string. -/
theorem getJobId_null_html_url_witness :
    getJobId nullUrlFetch "target-job" 1 1 = some (.found 9 "", [1]) :=
  getJobId_null_html_url nullUrlFetch "target-job" 1 1 ⟨9, "target-job", none⟩
    (by omega) (by decide) rfl

end CdktfDiff
